import Mathlib

/-!
Verification of the Nova launcher query engine against its specification.

The repository ships the public C interface (`include/nova.h`) declaring the
engine's contract: `nova_core_search`, `nova_core_execute`,
`nova_core_poll_clipboard`, `nova_core_reload`, `nova_core_result_count`,
`nova_string_free` and the theme accessors.  The engine implementation behind
that interface is not part of the checked-in sources, so the definitions below
model it from the specification (provider aggregation, ranking, session state,
executor, theme store), staying faithful to the header's documented contract.
-/

namespace Nova

/-! ## Character-level matching helpers (modelled from the spec:
substring / fuzzy matching used by the providers). -/

/-- Lower-cased character list of a string, for case-insensitive matching. -/
def lowerChars (s : String) : List Char :=
  s.toList.map Char.toLower

/-- Modelled from the spec: substring containment check used by the
AppProvider and ClipboardProvider (`matches query ... by substring`). -/
def containsSub : List Char → List Char → Bool
  | p, [] => p.isEmpty
  | p, c :: rest => p.isPrefixOf (c :: rest) || containsSub p rest

/-- Modelled from the spec: fuzzy (subsequence) matching used by the
AppProvider (`substring/fuzzy matching`). -/
def isSubseq : List Char → List Char → Bool
  | [], _ => true
  | _ :: _, [] => false
  | a :: as, b :: bs => if a == b then isSubseq as bs else isSubseq (a :: as) bs

/-! ## Calculator expression evaluation (modelled from the spec:
`attempts to parse the query as an arithmetic expression; if parseable,
yields exactly one Candidate with the expression and its evaluated result`). -/

/-- Arithmetic tokens of the calculator's expression language. -/
inductive Tok where
  | num (n : Int)
  | plus
  | minus
  | star
  | slash
  deriving DecidableEq

/-- Consume a run of decimal digits, returning the value and the rest. -/
def readNum : List Char → Nat → Nat × List Char
  | [], acc => (acc, [])
  | c :: rest, acc =>
    if c.isDigit then readNum rest (acc * 10 + (c.toNat - 48)) else (acc, c :: rest)

/-- Fuelled tokenizer for arithmetic expressions; any character that is not a
digit, an operator or a space makes the query non-arithmetic (`none`). -/
def tokenizeAux : Nat → List Char → Option (List Tok)
  | _, [] => some []
  | 0, _ :: _ => none
  | fuel + 1, c :: rest =>
    if c == ' ' then tokenizeAux fuel rest
    else if c == '+' then (tokenizeAux fuel rest).map (Tok.plus :: ·)
    else if c == '-' then (tokenizeAux fuel rest).map (Tok.minus :: ·)
    else if c == '*' then (tokenizeAux fuel rest).map (Tok.star :: ·)
    else if c == '/' then (tokenizeAux fuel rest).map (Tok.slash :: ·)
    else if c.isDigit then
      let (n, rest') := readNum rest (c.toNat - 48)
      (tokenizeAux fuel rest').map (Tok.num (Int.ofNat n) :: ·)
    else none

/-- Tokenize a query into arithmetic tokens, if it is arithmetic at all. -/
def tokenize (cs : List Char) : Option (List Tok) :=
  tokenizeAux cs.length cs

/-- Parse the multiplicative tail of a term (`* n` / `/ n` chains). -/
def parseTermRest : Int → List Tok → Option (Int × List Tok)
  | acc, Tok.star :: Tok.num n :: rest => parseTermRest (acc * n) rest
  | acc, Tok.slash :: Tok.num n :: rest =>
    if n = 0 then none else parseTermRest (acc / n) rest
  | acc, ts => some (acc, ts)

/-- Parse one term (a number followed by `*`/`/` factors). -/
def parseTerm : List Tok → Option (Int × List Tok)
  | Tok.num n :: rest => parseTermRest n rest
  | _ => none

/-- Fuelled parser for the additive structure of an expression.  A trailing
operator leaves the expression incomplete, so parsing fails. -/
def parseExprRest : Nat → Int → List Tok → Option Int
  | _, acc, [] => some acc
  | 0, _, _ :: _ => none
  | fuel + 1, acc, Tok.plus :: rest =>
    match parseTerm rest with
    | some (v, rest') => parseExprRest fuel (acc + v) rest'
    | none => none
  | fuel + 1, acc, Tok.minus :: rest =>
    match parseTerm rest with
    | some (v, rest') => parseExprRest fuel (acc - v) rest'
    | none => none
  | _ + 1, _, _ => none

/-- Modelled from the spec: the CalculatorProvider's expression evaluator.
`some v` when the query parses as a complete arithmetic expression. -/
def evalExpr (q : String) : Option Int :=
  match tokenize q.toList with
  | none => none
  | some ts =>
    match parseTerm ts with
    | some (v, rest) => parseExprRest rest.length v rest
    | none => none

/-! ## Candidate model and provider kinds -/

/-- One installed application known to the AppProvider's index. -/
structure AppInfo where
  id : String
  name : String
  exec : String
  deriving DecidableEq

/-- A normalized candidate item, one variant per provider
(`App | Calculation | ClipboardItem`). -/
inductive Candidate where
  | app (id name : String)
  | calculation (expression result : String)
  | clipboardItem (content : String)
  deriving DecidableEq

/-- The provider variants of the engine. -/
inductive ProviderKind where
  | calculator
  | app
  | clipboard
  deriving DecidableEq

/-- The provider variant that produced a candidate. -/
def Candidate.kind : Candidate → ProviderKind
  | .app .. => .app
  | .calculation .. => .calculator
  | .clipboardItem _ => .clipboard

/-- Modelled from the spec: the fixed provider-priority ordering used as the
ranking tie-break, `Calculator > App > Clipboard`. -/
def providerPriority : ProviderKind → Nat
  | .calculator => 2
  | .app => 1
  | .clipboard => 0

/-- The typed result of executing a candidate. -/
inductive Outcome where
  | success
  | error (message : String)
  | needsInput
  | openSettings
  | quit
  deriving DecidableEq

/-! ## Relevance hints.  Modelled from the spec: the calculator's hint is
maximal (`relevance hint is maximal`); app hints favor prefix over substring
over fuzzy matches; all other hints are strictly below the calculator's. -/

/-- Relevance hint of a calculation candidate (maximal). -/
def calcHint : Nat := 100

/-- Relevance hint for an app whose name starts with the query. -/
def appPrefixHint : Nat := 80

/-- Relevance hint for an app whose name contains the query. -/
def appSubstrHint : Nat := 60

/-- Relevance hint for an app whose name fuzzily matches the query. -/
def appFuzzyHint : Nat := 40

/-- Relevance hint for a clipboard-history entry containing the query. -/
def clipHint : Nat := 50

/-! ## Providers (modelled from the spec: `match(query) -> sequence of
(Candidate, relevance_hint)`; matching never mutates state). -/

/-- Modelled from the spec: the CalculatorProvider's `match` — if parseable,
exactly one candidate with the expression and its evaluated result. -/
def calcMatch (q : String) : List (Candidate × Nat) :=
  match evalExpr q with
  | some v => [(Candidate.calculation q (toString v), calcHint)]
  | none => []

/-- Match the query against one application name (case-insensitive), with a
hint favoring prefix over substring over fuzzy matches. -/
def appMatchOne (q : String) (a : AppInfo) : Option (Candidate × Nat) :=
  if (lowerChars q).isPrefixOf (lowerChars a.name) then
    some (Candidate.app a.id a.name, appPrefixHint)
  else if containsSub (lowerChars q) (lowerChars a.name) then
    some (Candidate.app a.id a.name, appSubstrHint)
  else if isSubseq (lowerChars q) (lowerChars a.name) then
    some (Candidate.app a.id a.name, appFuzzyHint)
  else none

/-- Modelled from the spec: the AppProvider's `match` over its app index. -/
def appMatch (apps : List AppInfo) (q : String) : List (Candidate × Nat) :=
  apps.filterMap (appMatchOne q)

/-- Modelled from the spec: the ClipboardProvider's `match` — substring
search over the history buffer. -/
def clipMatch (history : List String) (q : String) : List (Candidate × Nat) :=
  history.filterMap fun entry =>
    if containsSub q.toList entry.toList then
      some (Candidate.clipboardItem entry, clipHint)
    else none

/-! ## Ranker -/

/-- The ranking order on `(Candidate, relevance_hint)` pairs: primary key is
the relevance hint, descending; tie-break is the fixed provider priority.
`rankRel a b` holds when `a` may come before `b` in the ranked output. -/
def rankRel (a b : Candidate × Nat) : Prop :=
  b.2 < a.2 ∨ (b.2 = a.2 ∧ providerPriority b.1.kind ≤ providerPriority a.1.kind)

instance : DecidableRel rankRel := fun a b => by
  unfold rankRel; exact inferInstance

instance : IsTotal (Candidate × Nat) rankRel :=
  ⟨by intro a b; unfold rankRel; omega⟩

instance : IsTrans (Candidate × Nat) rankRel :=
  ⟨by intro a b c; unfold rankRel; omega⟩

/-- Modelled from the spec: the Ranker — stable sort of all providers'
pairs by `rankRel`, then truncation to the caller's maximum count. -/
def rankCandidates (pairs : List (Candidate × Nat)) (maxResults : Nat) :
    List Candidate :=
  ((List.insertionSort rankRel pairs).map Prod.fst).take maxResults

/-! ## Session state and its operations -/

/-- Modelled from the spec: the Session State behind the opaque `NovaCore`
handle — app index, clipboard history (most recent first) and the last
ranked result list. -/
structure NovaCore where
  apps : List AppInfo
  clipboard_history : List String
  last_results : List Candidate
  deriving DecidableEq

/-- Concatenation of all providers' matches for one query, in the stable
provider order Calculator, App, Clipboard. -/
def gatherCandidates (st : NovaCore) (q : String) : List (Candidate × Nat) :=
  calcMatch q ++ appMatch st.apps q ++ clipMatch st.clipboard_history q

/-- Instrumented output of a search: the ranked results, the updated session
state, and the trace of which providers were queried. -/
structure SearchOutput where
  results : List Candidate
  state : NovaCore
  queriedProviders : List ProviderKind
  deriving DecidableEq

/-- Modelled from the spec: `nova_core_search` — the empty query
short-circuits to an empty result set before any provider is queried;
otherwise the query fans out to every provider, the ranker merges, sorts and
truncates, and `last_results` is replaced wholesale. -/
def novaSearch (st : NovaCore) (q : String) (maxResults : Nat) : SearchOutput :=
  if q = "" then
    { results := []
      state := { st with last_results := [] }
      queriedProviders := [] }
  else
    let rs := rankCandidates (gatherCandidates st q) maxResults
    { results := rs
      state := { st with last_results := rs }
      queriedProviders := [ProviderKind.calculator, ProviderKind.app, ProviderKind.clipboard] }

/-- The FFI view of a search: the returned list and the updated state. -/
def nova_core_search (st : NovaCore) (q : String) (maxResults : Nat) :
    List Candidate × NovaCore :=
  ((novaSearch st q maxResults).results, (novaSearch st q maxResults).state)

/-- Modelled from the spec: `nova_core_result_count` — the size of the list
from the most recent search. -/
def nova_core_result_count (st : NovaCore) : Nat :=
  st.last_results.length

/-! ## Executor -/

/-- Modelled from the spec: dispatch a candidate to its owning provider's
`execute`.  App launch succeeds when the application is still in the index
(`Error` e.g. on binary missing); the calculator reports `NeedsInput` for an
incomplete expression; the clipboard errors when the entry no longer
exists. -/
def providerExecute (st : NovaCore) (c : Candidate) : Outcome :=
  match c with
  | .app id _ =>
    if st.apps.any (fun a => a.id == id) then Outcome.success
    else Outcome.error ("failed to launch application: " ++ id)
  | .calculation expr _ =>
    if (evalExpr expr).isSome then Outcome.success else Outcome.needsInput
  | .clipboardItem content =>
    if st.clipboard_history.contains content then Outcome.success
    else Outcome.error "clipboard entry no longer exists"

/-- Instrumented output of an execution: the outcome together with the
candidate that was dispatched to a provider (`none` when the request was
rejected before any provider was touched). -/
structure ExecOutput where
  outcome : Outcome
  dispatched : Option Candidate
  deriving DecidableEq

/-- Modelled from the spec: `nova_core_execute` — validates the index
against the current `last_results`; on violation returns an `Error` outcome
with a descriptive message before any provider is touched; otherwise
resolves the candidate at that index and invokes its owning provider. -/
def novaExecute (st : NovaCore) (index : Nat) : ExecOutput :=
  match st.last_results[index]? with
  | some c => { outcome := providerExecute st c, dispatched := some c }
  | none =>
    { outcome := Outcome.error "index out of range for last search results"
      dispatched := none }

/-- The FFI view of an execution: just the outcome. -/
def nova_core_execute (st : NovaCore) (index : Nat) : Outcome :=
  (novaExecute st index).outcome

/-! ## Clipboard polling and reload -/

/-- Capacity of the bounded clipboard history (oldest entries dropped). -/
def clipboardCapacity : Nat := 50

/-- Modelled from the spec: `nova_core_poll_clipboard` — reads the system
clipboard (passed here as the external input `sys`) and appends a new
history entry only when its content differs from the most recent entry
(deduplication by content equality), evicting the oldest beyond capacity. -/
def nova_core_poll_clipboard (st : NovaCore) (sys : String) : NovaCore :=
  if st.clipboard_history.head? = some sys then st
  else { st with
          clipboard_history := (sys :: st.clipboard_history).take clipboardCapacity }

/-- Modelled from the spec: `nova_core_reload` — re-initializes the provider
indexes (the freshly rescanned app list is the external input `freshApps`)
without discarding clipboard history, and replaces `last_results` with
empty. -/
def nova_core_reload (st : NovaCore) (freshApps : List AppInfo) : NovaCore :=
  { apps := freshApps
    clipboard_history := st.clipboard_history
    last_results := [] }

/-! ## FFI string ownership (modelled from the header: `nova_string_free`
frees a string returned by the FFI functions, and NULL is safely ignored).
The allocation state is a list of live allocation ids; a pointer is either
NULL (`none`) or an allocation id. -/

/-- Modelled from the spec: `nova_string_free` — freeing NULL is a safe
no-op that leaves every allocation alive; freeing a valid pointer releases
that one allocation. -/
def nova_string_free (ptr : Option Nat) (heap : List Nat) : List Nat :=
  match ptr with
  | none => heap
  | some id => heap.erase id

/-! ## Theme store (modelled from the header: static read-only lookup
tables keyed by string, no interaction with session state — none of the
accessors takes a session handle). -/

/-- The static color table of the theme store. -/
def themeColors : List (String × String) :=
  [("background", "#1a1a1a"), ("foreground", "#ffffff"), ("accent", "#7aa2f7"),
   ("border", "#2a2a2a"), ("highlight", "#33415e")]

/-- The static spacing table of the theme store (pixels). -/
def themeSpacing : List (String × Nat) :=
  [("xs", 4), ("sm", 8), ("md", 12), ("lg", 16), ("xl", 24), ("xxl", 32)]

/-- The static component-sizing table of the theme store. -/
def themeComponents : List (String × Nat) :=
  [("listItemHeight", 52), ("panelWidth", 640), ("inputHeight", 56)]

/-- Modelled from the spec: `nova_core_get_theme_color` — the hex color for
a key, or NULL (`none`) if the key is not found. -/
def nova_core_get_theme_color (key : String) : Option String :=
  (themeColors.find? (fun p => p.1 == key)).map Prod.snd

/-- Modelled from the spec: `nova_core_get_theme_spacing` — the spacing
value for a key, or 0 if not found. -/
def nova_core_get_theme_spacing (key : String) : Nat :=
  ((themeSpacing.find? (fun p => p.1 == key)).map Prod.snd).getD 0

/-- Modelled from the spec: `nova_core_get_theme_component` — the component
value for a key, or 0 if not found. -/
def nova_core_get_theme_component (key : String) : Nat :=
  ((themeComponents.find? (fun p => p.1 == key)).map Prod.snd).getD 0

/-! ## Sample session states used by concrete witnesses -/

/-- A freshly created session with no indexed apps. -/
def emptySession : NovaCore :=
  { apps := [], clipboard_history := [], last_results := [] }

/-- A session with one indexed application (Camera) and a stale result. -/
def cameraSession : NovaCore :=
  { apps := [⟨"cam", "Camera", "camera"⟩]
    clipboard_history := []
    last_results := [Candidate.clipboardItem "old"] }

/-! ## Theorems -/

/-- The state stored by a search carries exactly the returned result list. -/
theorem search_state_last_results (st : NovaCore) (q : String) (m : Nat) :
    (novaSearch st q m).state.last_results = (novaSearch st q m).results := by
  unfold novaSearch
  split <;> rfl

/-- C1: for every query string `q` and every limit `m`, the sequence
returned by `search(q, m)` has length at most `m`, and `result_count()`
after that search equals the length of the returned sequence. -/
theorem search_length_le_and_result_count (st : NovaCore) (q : String) (m : Nat) :
    (novaSearch st q m).results.length ≤ m ∧
    nova_core_result_count (novaSearch st q m).state =
      (novaSearch st q m).results.length := by
  constructor
  · unfold novaSearch rankCandidates
    split
    · simp
    · simp
  · rw [nova_core_result_count, search_state_last_results]

/-- C2: for every index `k` with `k ≥ result_count()`, `execute(k)` returns
an Error outcome carrying a descriptive message, and no provider's execute
is invoked (nothing is dispatched). -/
theorem execute_out_of_range (st : NovaCore) (k : Nat)
    (h : nova_core_result_count st ≤ k) :
    novaExecute st k =
      { outcome := Outcome.error "index out of range for last search results"
        dispatched := none } := by
  unfold novaExecute
  rw [List.getElem?_eq_none h]

/-- Witness for C2 at the freshly created session and index 0. -/
theorem execute_out_of_range_witness :
    nova_core_result_count emptySession ≤ 0 ∧
    novaExecute emptySession 0 =
      { outcome := Outcome.error "index out of range for last search results"
        dispatched := none } :=
  ⟨by decide, execute_out_of_range emptySession 0 (by decide)⟩

/-- Every pair produced by the providers for a query classifies its hint by
kind: calculation candidates carry the maximal hint, app candidates a
strictly smaller one. -/
theorem mem_gather_hint (st : NovaCore) (q : String) (p : Candidate × Nat)
    (hp : p ∈ gatherCandidates st q) :
    (p.1.kind = ProviderKind.calculator → p.2 = calcHint) ∧
    (p.1.kind = ProviderKind.app → p.2 < calcHint) := by
  unfold gatherCandidates at hp
  rcases List.mem_append.1 hp with h | h
  · rcases List.mem_append.1 h with h | h
    · unfold calcMatch at h
      split at h
      · simp only [List.mem_singleton] at h
        subst h
        exact ⟨fun _ => rfl, fun hk => by simp [Candidate.kind] at hk⟩
      · simp at h
    · rw [appMatch, List.mem_filterMap] at h
      obtain ⟨a, -, ha⟩ := h
      unfold appMatchOne at ha
      split at ha
      · cases ha
        exact ⟨fun hk => by simp [Candidate.kind] at hk,
               fun _ => by simp [appPrefixHint, calcHint]⟩
      · split at ha
        · cases ha
          exact ⟨fun hk => by simp [Candidate.kind] at hk,
                 fun _ => by simp [appSubstrHint, calcHint]⟩
        · split at ha
          · cases ha
            exact ⟨fun hk => by simp [Candidate.kind] at hk,
                   fun _ => by simp [appFuzzyHint, calcHint]⟩
          · cases ha
  · rw [clipMatch, List.mem_filterMap] at h
    obtain ⟨e, -, he⟩ := h
    split at he
    · cases he
      exact ⟨fun hk => by simp [Candidate.kind] at hk,
             fun hk => by simp [Candidate.kind] at hk⟩
    · cases he

/-- C3: the ranked sequence is sorted by relevance hint descending with the
fixed provider-priority tie-break (Calculator > App > Clipboard); same-kind
candidates with equal hints keep their original match order (stable sort);
and in every search output a Calculation candidate never appears after an
App candidate. -/
theorem ranking_order (pairs : List (Candidate × Nat)) (st : NovaCore)
    (q : String) (m : Nat) :
    ((List.insertionSort rankRel pairs).Pairwise fun a b =>
      b.2 ≤ a.2 ∧ (b.2 = a.2 → providerPriority b.1.kind ≤ providerPriority a.1.kind)) ∧
    (∀ a b : Candidate × Nat, a.1.kind = b.1.kind → a.2 = b.2 →
      [a, b].Sublist pairs → [a, b].Sublist (List.insertionSort rankRel pairs)) ∧
    ((novaSearch st q m).results.Pairwise fun a b =>
      ¬(a.kind = ProviderKind.app ∧ b.kind = ProviderKind.calculator)) := by
  refine ⟨?_, ?_, ?_⟩
  · refine List.Pairwise.imp ?_ (List.sorted_insertionSort rankRel pairs)
    intro a b hab
    unfold rankRel at hab
    exact ⟨by omega, fun he => by omega⟩
  · intro a b hk hh hsub
    exact List.pair_sublist_insertionSort (Or.inr ⟨hh.symm, by rw [← hk]⟩) hsub
  · by_cases hq : q = ""
    · simp [novaSearch, hq]
    · have hs : (List.insertionSort rankRel (gatherCandidates st q)).Pairwise
          (fun a b : Candidate × Nat =>
            ¬(a.1.kind = ProviderKind.app ∧ b.1.kind = ProviderKind.calculator)) := by
        refine List.Pairwise.imp_of_mem ?_ (List.sorted_insertionSort rankRel _)
        intro a b ha hb hab hcon
        obtain ⟨hka, hkb⟩ := hcon
        have ha' := mem_gather_hint st q a
          ((List.perm_insertionSort rankRel _).mem_iff.1 ha)
        have hb' := mem_gather_hint st q b
          ((List.perm_insertionSort rankRel _).mem_iff.1 hb)
        have h1 : a.2 < calcHint := ha'.2 hka
        have h2 : b.2 = calcHint := hb'.1 hkb
        unfold rankRel at hab
        rcases hab with h | ⟨he, hp⟩
        · omega
        · rw [hka, hkb] at hp
          simp [providerPriority] at hp
      rw [novaSearch, if_neg hq]
      unfold rankCandidates
      exact List.Pairwise.sublist (List.take_sublist _ _) (List.pairwise_map.mpr hs)

/-- Witness for C3: two equal-hint candidates of the same provider keep
their input order through the ranker's stable sort. -/
theorem ranking_order_witness :
    [(Candidate.app "a" "Alpha", appSubstrHint),
     (Candidate.app "b" "Beta", appSubstrHint)].Sublist
      (List.insertionSort rankRel
        [(Candidate.app "a" "Alpha", appSubstrHint),
         (Candidate.app "x" "Xray", appPrefixHint),
         (Candidate.app "b" "Beta", appSubstrHint)]) :=
  (ranking_order
      [(Candidate.app "a" "Alpha", appSubstrHint),
       (Candidate.app "x" "Xray", appPrefixHint),
       (Candidate.app "b" "Beta", appSubstrHint)]
      emptySession "q" 0).2.1
    (Candidate.app "a" "Alpha", appSubstrHint)
    (Candidate.app "b" "Beta", appSubstrHint)
    rfl rfl (by decide)

/-- C4: for every limit `m`, `search("", m)` returns the empty list, no
provider is queried, and the prior `last_results` is still replaced. -/
theorem search_empty_query (st : NovaCore) (m : Nat) :
    novaSearch st "" m =
      { results := []
        state := { st with last_results := [] }
        queriedProviders := [] } := by
  unfold novaSearch
  simp

/-- C5: two consecutive invocations of `search(q, m)` with identical query
and limit, with no intervening reload or poll, return identical ordered
output. -/
theorem search_deterministic (st : NovaCore) (q : String) (m : Nat) :
    (novaSearch (novaSearch st q m).state q m).results =
      (novaSearch st q m).results := by
  by_cases hq : q = "" <;>
    simp [novaSearch, hq, gatherCandidates]

/-- C6: after `reload()`, `result_count()` equals 0 (the last results are
replaced with the empty sequence) while the clipboard history is left
unchanged. -/
theorem reload_resets_results_keeps_clipboard (st : NovaCore)
    (freshApps : List AppInfo) :
    nova_core_result_count (nova_core_reload st freshApps) = 0 ∧
    (nova_core_reload st freshApps).clipboard_history = st.clipboard_history :=
  ⟨rfl, rfl⟩

/-- C7: `poll_clipboard` appends a new history entry only when the system
clipboard content differs from the most recent history entry, and two
consecutive polls with unchanged system clipboard content leave the length
of the clipboard history unchanged. -/
theorem poll_clipboard_dedup (st : NovaCore) (sys : String) :
    (st.clipboard_history.head? = some sys → nova_core_poll_clipboard st sys = st) ∧
    (st.clipboard_history.head? ≠ some sys →
      (nova_core_poll_clipboard st sys).clipboard_history =
        (sys :: st.clipboard_history).take clipboardCapacity) ∧
    (nova_core_poll_clipboard (nova_core_poll_clipboard st sys) sys).clipboard_history.length
      = (nova_core_poll_clipboard st sys).clipboard_history.length := by
  refine ⟨fun h => ?_, fun h => ?_, ?_⟩
  · simp [nova_core_poll_clipboard, h]
  · simp [nova_core_poll_clipboard, h]
  · by_cases h : st.clipboard_history.head? = some sys
    · simp [nova_core_poll_clipboard, h]
    · have hh : (nova_core_poll_clipboard st sys).clipboard_history.head? = some sys := by
        simp [nova_core_poll_clipboard, h, clipboardCapacity]
      rw [nova_core_poll_clipboard, if_pos hh]

/-- Witness for C7: polling with content equal to the newest entry is a
no-op, and polling fresh content appends it. -/
theorem poll_clipboard_dedup_witness :
    nova_core_poll_clipboard (nova_core_poll_clipboard emptySession "x") "x" =
      nova_core_poll_clipboard emptySession "x" ∧
    (nova_core_poll_clipboard emptySession "x").clipboard_history =
      ("x" :: emptySession.clipboard_history).take clipboardCapacity :=
  ⟨(poll_clipboard_dedup (nova_core_poll_clipboard emptySession "x") "x").1 (by decide),
   (poll_clipboard_dedup emptySession "x").2.1 (by decide)⟩

/-- C8: `execute(k)` resolves `k` against the `last_results` stored by the
most recent search: after a search, execution at index `k` dispatches on the
candidate at position `k` of the newly returned list. -/
theorem execute_resolves_new_results (st : NovaCore) (q : String) (m k : Nat)
    (c : Candidate) (h : (novaSearch st q m).results[k]? = some c) :
    novaExecute (novaSearch st q m).state k =
      { outcome := providerExecute (novaSearch st q m).state c
        dispatched := some c } := by
  unfold novaExecute
  rw [search_state_last_results, h]

/-- Witness for C8: searching "cam" in a session with a Camera app and
executing index 0 dispatches on the Camera candidate of the new list. -/
theorem execute_resolves_new_results_witness :
    (novaSearch cameraSession "cam" 10).results[0]? =
      some (Candidate.app "cam" "Camera") ∧
    novaExecute (novaSearch cameraSession "cam" 10).state 0 =
      { outcome := providerExecute (novaSearch cameraSession "cam" 10).state
          (Candidate.app "cam" "Camera")
        dispatched := some (Candidate.app "cam" "Camera") } :=
  ⟨by decide, execute_resolves_new_results cameraSession "cam" 10 0 _ (by decide)⟩

/-- C9: freeing a NULL string pointer is a safe no-op: the allocation state
is returned unchanged, nothing is freed. -/
theorem string_free_null_noop (heap : List Nat) :
    nova_string_free none heap = heap := rfl

/-- C10: for every lookup key not present in the theme tables, the theme
accessors return the distinguishable absent value: NULL (`none`) for an
unknown color key and 0 for an unknown spacing or component key.  None of
the accessors takes a session handle, so session state is untouched. -/
theorem theme_unknown_key_absent (key : String)
    (hcol : ∀ p ∈ themeColors, p.1 ≠ key)
    (hsp : ∀ p ∈ themeSpacing, p.1 ≠ key)
    (hcmp : ∀ p ∈ themeComponents, p.1 ≠ key) :
    nova_core_get_theme_color key = none ∧
    nova_core_get_theme_spacing key = 0 ∧
    nova_core_get_theme_component key = 0 := by
  have f1 : themeColors.find? (fun p => p.1 == key) = none := by
    rw [List.find?_eq_none]
    intro x hx
    simpa using hcol x hx
  have f2 : themeSpacing.find? (fun p => p.1 == key) = none := by
    rw [List.find?_eq_none]
    intro x hx
    simpa using hsp x hx
  have f3 : themeComponents.find? (fun p => p.1 == key) = none := by
    rw [List.find?_eq_none]
    intro x hx
    simpa using hcmp x hx
  refine ⟨?_, ?_, ?_⟩
  · rw [nova_core_get_theme_color, f1]
    rfl
  · rw [nova_core_get_theme_spacing, f2]
    rfl
  · rw [nova_core_get_theme_component, f3]
    rfl

/-- Witness for C10 at the unknown key "nope". -/
theorem theme_unknown_key_absent_witness :
    nova_core_get_theme_color "nope" = none ∧
    nova_core_get_theme_spacing "nope" = 0 ∧
    nova_core_get_theme_component "nope" = 0 :=
  theme_unknown_key_absent "nope" (by decide) (by decide) (by decide)

end Nova
